import Mathlib

/-!
Verification development for the discord-clip-scraper repository.

The Python source is shallowly embedded: each component's mutable state is a
Lean structure, each loop body or method is a pure Lean function on that state,
and external effects (network download, ffprobe, ffmpeg, uploads, logging) are
represented by explicit oracle inputs and by event values in the output.
Python floats (times, durations) are modelled as rationals, Python dicts as
association lists with insert-only-when-absent discipline, and the stdlib
binary heap (heapq) by its priority-queue semantics: an insertion-sorted list
keyed on the first tuple component, whose pop returns the head.
-/

/- ---------------------------------------------------------------
   Python value modelling helpers
   --------------------------------------------------------------- -/

/-- A Python value as it can appear in the `Expire_Timestamp` slot of a
refetch-queue tuple: an int, a float, a string, or None.
`isinstance(x, (int, float))` from `refetch_handler.py` line 40 corresponds to
`toNum` returning `some`. -/
inductive PyVal where
  | int : Int → PyVal
  | float : Rat → PyVal
  | str : String → PyVal
  | pynone : PyVal
deriving DecidableEq

/-- Numeric view of a `PyVal`: `some` exactly on ints and floats. -/
def PyVal.toNum : PyVal → Option Rat
  | .int n => some (n : Rat)
  | .float q => some q
  | .str _ => Option.none
  | .pynone => Option.none

/- ---------------------------------------------------------------
   discord_bot_handler.py : trim_attachment_url (lines 94-100)
   --------------------------------------------------------------- -/

/-- The characters of the marker `"?ex="` searched for by
`trim_attachment_url`. -/
def exMarker : List Char := ['?', 'e', 'x', '=']

/-- Search downward from index `i` for the largest index at which `pat`
occurs in `s` (Python `str.rfind` restricted to indices `≤ i`). -/
def lastOccFrom (pat s : List Char) : Nat → Option Nat
  | 0 => if pat.isPrefixOf (s.drop 0) then some 0 else Option.none
  | i + 1 => if pat.isPrefixOf (s.drop (i + 1)) then some (i + 1) else lastOccFrom pat s i

/-- Index of the last occurrence of `pat` in `s`, as computed by Python
`s.rfind(pat)` (with `none` in place of `-1`). -/
def rfindLast (pat s : List Char) : Option Nat := lastOccFrom pat s s.length

/-- `DiscordBotHandler.trim_attachment_url` (discord_bot_handler.py lines
94-100): if `"?ex="` occurs in the URL, cut the string at the last
occurrence; otherwise return the URL unchanged. -/
def trim_attachment_url (url : String) : String :=
  match rfindLast exMarker url.data with
  | some i => String.mk (url.data.take i)
  | Option.none => url

/- ---------------------------------------------------------------
   discord_bot_handler.py : generate_message_id (lines 124-127)
   MD5 (Python hashlib.md5, RFC 1321) over the UTF-8 bytes of the
   concatenated arguments, hex digest truncated to 8 characters.
   --------------------------------------------------------------- -/

/-- 2^32, the modulus for 32-bit words. -/
def m32 : Nat := 4294967296

/-- 32-bit addition. -/
def add32 (a b : Nat) : Nat := (a + b) % m32

/-- 32-bit left rotation (inputs assumed `< 2^32`). -/
def rotl32 (x c : Nat) : Nat := ((x <<< c) % m32) ||| (x >>> (32 - c))

/-- The MD5 per-round shift amounts. -/
def md5Shifts : List Nat :=
  [7, 12, 17, 22, 7, 12, 17, 22, 7, 12, 17, 22, 7, 12, 17, 22,
   5, 9, 14, 20, 5, 9, 14, 20, 5, 9, 14, 20, 5, 9, 14, 20,
   4, 11, 16, 23, 4, 11, 16, 23, 4, 11, 16, 23, 4, 11, 16, 23,
   6, 10, 15, 21, 6, 10, 15, 21, 6, 10, 15, 21, 6, 10, 15, 21]

/-- The MD5 sine-derived round constants. -/
def md5Consts : List Nat :=
  [0xd76aa478, 0xe8c7b756, 0x242070db, 0xc1bdceee,
   0xf57c0faf, 0x4787c62a, 0xa8304613, 0xfd469501,
   0x698098d8, 0x8b44f7af, 0xffff5bb1, 0x895cd7be,
   0x6b901122, 0xfd987193, 0xa679438e, 0x49b40821,
   0xf61e2562, 0xc040b340, 0x265e5a51, 0xe9b6c7aa,
   0xd62f105d, 0x02441453, 0xd8a1e681, 0xe7d3fbc8,
   0x21e1cde6, 0xc33707d6, 0xf4d50d87, 0x455a14ed,
   0xa9e3e905, 0xfcefa3f8, 0x676f02d9, 0x8d2a4c8a,
   0xfffa3942, 0x8771f681, 0x6d9d6122, 0xfde5380c,
   0xa4beea44, 0x4bdecfa9, 0xf6bb4b60, 0xbebfbc70,
   0x289b7ec6, 0xeaa127fa, 0xd4ef3085, 0x04881d05,
   0xd9d4d039, 0xe6db99e5, 0x1fa27cf8, 0xc4ac5665,
   0xf4292244, 0x432aff97, 0xab9423a7, 0xfc93a039,
   0x655b59c3, 0x8f0ccc92, 0xffeff47d, 0x85845dd1,
   0x6fa87e4f, 0xfe2ce6e0, 0xa3014314, 0x4e0811a1,
   0xf7537e82, 0xbd3af235, 0x2ad7d2bb, 0xeb86d391]

/-- Serialize `x` as `k` little-endian bytes. -/
def toBytesLE : Nat → Nat → List Nat
  | 0, _ => []
  | k + 1, x => x % 256 :: toBytesLE k (x / 256)

/-- MD5 padding for a message of `len` bytes: a `0x80` byte, zero bytes up to
56 mod 64, then the bit length as 8 little-endian bytes. -/
def md5Padding (len : Nat) : List Nat :=
  let r := (len + 1) % 64
  let z := (120 - r) % 64
  128 :: List.replicate z 0 ++ toBytesLE 8 (len * 8)

/-- Append the MD5 padding to a byte message. -/
def md5Pad (msg : List Nat) : List Nat := msg ++ md5Padding msg.length

/-- Group bytes into little-endian 32-bit words. -/
def bytesToWords : List Nat → List Nat
  | b0 :: b1 :: b2 :: b3 :: rest =>
      (b0 + 256 * b1 + 65536 * b2 + 16777216 * b3) :: bytesToWords rest
  | _ => []

/-- Split a byte list into 64-byte chunks. -/
def toChunks (l : List Nat) : List (List Nat) :=
  if h : l = [] then [] else l.take 64 :: toChunks (l.drop 64)
termination_by l.length
decreasing_by
  have hp : 0 < l.length := List.length_pos.mpr h
  simp only [List.length_drop]
  omega

/-- The four 32-bit words of MD5 working state. -/
structure MDState where
  a : Nat
  b : Nat
  c : Nat
  d : Nat

/-- One of the 64 MD5 rounds, `m` giving the current chunk's words. -/
def md5Round (m : Nat → Nat) (st : MDState) (i : Nat) : MDState :=
  let f :=
    if i < 16 then (st.b &&& st.c) ||| ((st.b ^^^ 4294967295) &&& st.d)
    else if i < 32 then (st.d &&& st.b) ||| ((st.d ^^^ 4294967295) &&& st.c)
    else if i < 48 then st.b ^^^ st.c ^^^ st.d
    else st.c ^^^ (st.b ||| (st.d ^^^ 4294967295))
  let g :=
    if i < 16 then i
    else if i < 32 then (5 * i + 1) % 16
    else if i < 48 then (3 * i + 5) % 16
    else (7 * i) % 16
  let f2 := (f + st.a + md5Consts.getD i 0 + m g) % m32
  { a := st.d, d := st.c, c := st.b, b := add32 st.b (rotl32 f2 (md5Shifts.getD i 0)) }

/-- Process one 64-byte chunk. -/
def md5Chunk (st : MDState) (chunk : List Nat) : MDState :=
  let ws := bytesToWords chunk
  let r := (List.range 64).foldl (md5Round fun g => ws.getD g 0) st
  { a := add32 st.a r.a, b := add32 st.b r.b, c := add32 st.c r.c, d := add32 st.d r.d }

/-- MD5 digest (16 bytes) of a byte message. -/
def md5Bytes (msg : List Nat) : List Nat :=
  let st := (toChunks (md5Pad msg)).foldl md5Chunk
    { a := 0x67452301, b := 0xefcdab89, c := 0x98badcfe, d := 0x10325476 }
  toBytesLE 4 st.a ++ toBytesLE 4 st.b ++ toBytesLE 4 st.c ++ toBytesLE 4 st.d

/-- Lowercase hexadecimal digit character for `n < 16`. -/
def hexChar (n : Nat) : Char := if n < 10 then Char.ofNat (48 + n) else Char.ofNat (87 + n)

/-- Two lowercase hex characters of a byte. -/
def byteToHex (b : Nat) : List Char := [hexChar (b / 16), hexChar (b % 16)]

/-- Python `hashlib.md5(msg).hexdigest()` as a character list. -/
def md5Hexdigest (msg : List Nat) : List Char := (md5Bytes msg).flatMap byteToHex

/-- UTF-8 bytes of a string, as Python `str.encode()` produces. -/
def strBytes (s : String) : List Nat := s.toUTF8.toList.map (fun b => b.toNat)

/-- Whether a character is a lowercase hexadecimal digit. -/
def isLowerHexDigit (c : Char) : Bool :=
  (48 ≤ c.toNat && c.toNat ≤ 57) || (97 ≤ c.toNat && c.toNat ≤ 102)

/-- `DiscordBotHandler.generate_message_id` (discord_bot_handler.py lines
124-127): the first 8 hex digits of the MD5 of the concatenation of the
stringified author identity, creation timestamp, and attachment URL. -/
def generate_message_id (author_name created_at attachment : String) : String :=
  String.mk ((md5Hexdigest (strBytes (author_name ++ created_at ++ attachment))).take 8)

/-- The resource id computed for one attachment by
`DiscordBotHandler.process_message` (discord_bot_handler.py lines 63-65):
`generate_message_id` applied to the author id, the creation timestamp, and
the trimmed attachment URL. -/
def attachment_uuid (author_id created_at url : String) : String :=
  generate_message_id author_id created_at (trim_attachment_url url)

/- ---------------------------------------------------------------
   message_handler.py : MessageHandler (Ingestion Batcher)
   --------------------------------------------------------------- -/

/-- The user-data dict built in `process_message` (`Name`, `Url`), each value
possibly absent or None. -/
structure UserData where
  Name : Option String
  Url : Option String
deriving DecidableEq

/-- The message-data dict built by `build_message_data`
(discord_bot_handler.py lines 103-121). -/
structure MessageData where
  Id : String
  Discord_id : String
  Poster : String
  Date : Rat
  Link_to_message : String
  Description : String
  Attachment_URL : String
  Filename : String
  Expire_Timestamp : Option Int
  channelId : String
deriving DecidableEq

/-- Mutable state of `MessageHandler`: the ordered message buffer, the
name-keyed poster dict, and the last flush instant. -/
structure MHState where
  pending_messages : List MessageData
  pending_users : List (String × UserData)
  last_flush_time : Rat
deriving DecidableEq

/-- Observable batched upsert: the messages and posters handed to
`datastore.push_batch_msgs` / `push_batch_user_data`, with the outcome flag of
that upsert (the datastore catches its own exceptions, so the outcome is
observable only in the log). -/
inductive MHEvent where
  | uploadEvent : List MessageData → List (String × UserData) → Bool → MHEvent
deriving DecidableEq

/-- The queue-receive half of one iteration of
`MessageHandler.start_live_message_handling` (message_handler.py lines
24-33): append the message, and record the poster when its name is truthy and
not yet a key of the pending-users dict. -/
def mhReceive (st : MHState) (item : Option (MessageData × UserData)) : MHState :=
  match item with
  | Option.none => st
  | some (m, a) =>
    let st1 := { st with pending_messages := st.pending_messages ++ [m] }
    match a.Name with
    | some username =>
      if username ≠ "" ∧ (List.lookup username st1.pending_users).isNone then
        { st1 with pending_users := st1.pending_users ++ [(username, a)] }
      else st1
    | Option.none => st1

/-- The flush half of one iteration of `start_live_message_handling`
(message_handler.py lines 36-43): when the size or time threshold is reached
and the message buffer is non-empty, upload both buffers, clear the message
buffer only, and reset the flush timer. -/
def mhFlushCheck (st : MHState) (now : Rat) (batch_size : Nat) (flush_interval : Rat)
    (uploadOk : Bool) : MHState × List MHEvent :=
  if st.pending_messages.length ≥ batch_size ∨ now - st.last_flush_time ≥ flush_interval then
    if st.pending_messages ≠ [] then
      ({ st with pending_messages := [], last_flush_time := now },
       [.uploadEvent st.pending_messages st.pending_users uploadOk])
    else (st, [])
  else (st, [])

/-- One full iteration of the `MessageHandler.start_live_message_handling`
loop at time `now`, consuming at most one queue item. -/
def mhIterate (st : MHState) (item : Option (MessageData × UserData)) (now : Rat)
    (batch_size : Nat) (flush_interval : Rat) (uploadOk : Bool) : MHState × List MHEvent :=
  mhFlushCheck (mhReceive st item) now batch_size flush_interval uploadOk

/-- `MessageHandler.shutdown` (message_handler.py lines 52-58): one final
upload when either buffer is non-empty, then both buffers are cleared. -/
def mhShutdown (st : MHState) (uploadOk : Bool) : MHState × List MHEvent :=
  if st.pending_messages ≠ [] ∨ st.pending_users ≠ [] then
    ({ st with pending_messages := [], pending_users := [] },
     [.uploadEvent st.pending_messages st.pending_users uploadOk])
  else (st, [])

/- ---------------------------------------------------------------
   refetch_handler.py : RefetchHandler (Expiration Scheduler)
   --------------------------------------------------------------- -/

/-- One tuple in the refetch heap:
`(expire_timestamp, message_id, discord_id, channel_id)`; only validated
(numeric) timestamps reach the heap. -/
structure HeapEntry where
  expire : Rat
  message_id : String
  discord_id : String
  channel_id : String
deriving DecidableEq

/-- One raw tuple read from the refetch queue, whose `expire_timestamp` slot
may hold any Python value. -/
structure QueueItem where
  expire : PyVal
  message_id : String
  discord_id : String
  channel_id : String
deriving DecidableEq

/-- Observable scheduler events: a dropped invalid timestamp (logged error,
refetch_handler.py line 43), or a dispatched re-fetch for a popped entry
(lines 92-99). -/
inductive RefetchLog where
  | invalidTimestamp : String → PyVal → RefetchLog
  | dispatched : HeapEntry → RefetchLog
deriving DecidableEq

/-- `heapq.heappush` on tuples keyed by `expire`, modelled by sorted
insertion (ties keep insertion order; the claims only concern the `expire`
key). -/
def heappush (heap : List HeapEntry) (e : HeapEntry) : List HeapEntry :=
  match heap with
  | [] => [e]
  | x :: rest => if e.expire < x.expire then e :: x :: rest else x :: heappush rest e

/-- The validated heap entry for a queue item, or `none` when its
`expire_timestamp` is not numeric. -/
def toHeapEntry (item : QueueItem) : Option HeapEntry :=
  item.expire.toNum.map (fun q => ⟨q, item.message_id, item.discord_id, item.channel_id⟩)

/-- One step of the queue-drain loop in `RefetchHandler.start`
(refetch_handler.py lines 38-45): a numeric timestamp is pushed onto the
heap, anything else is dropped with a logged error, and draining continues. -/
def drainStep (acc : List HeapEntry × List RefetchLog) (item : QueueItem) :
    List HeapEntry × List RefetchLog :=
  match PyVal.toNum item.expire with
  | some q => (heappush acc.1 ⟨q, item.message_id, item.discord_id, item.channel_id⟩, acc.2)
  | Option.none => (acc.1, acc.2 ++ [.invalidTimestamp item.message_id item.expire])

/-- The full queue drain of `RefetchHandler.start` over the items currently
in the refetch queue. -/
def drainRefetchQueue (heap : List HeapEntry) (log : List RefetchLog)
    (items : List QueueItem) : List HeapEntry × List RefetchLog :=
  items.foldl drainStep (heap, log)

/-- `RefetchHandler.process_expired_messages` (refetch_handler.py lines
87-104): with `now` fixed once at entry, repeatedly pop the heap head while
its expiry is `≤ now`, dispatching a re-fetch for each popped entry; return
the remaining heap and the dispatched entries in pop order. -/
def process_expired_messages (heap : List HeapEntry) (now : Int) :
    List HeapEntry × List HeapEntry :=
  match heap with
  | [] => ([], [])
  | e :: rest =>
    if e.expire ≤ (now : Rat) then
      let r := process_expired_messages rest now
      (r.1, e :: r.2)
    else (e :: rest, [])

/- ---------------------------------------------------------------
   thumbnail_gen.py : batch_save_metadata (Metadata Batcher)
   --------------------------------------------------------------- -/

/-- One entry of the internal metadata queue, as read by
`entry.get("Id")` / `entry.get("Length")` (missing keys give None). -/
structure MetaEntry where
  Id : Option String
  Length : Option Rat
deriving DecidableEq

/-- Observable events of the metadata batching loop: the four log branches of
the drain loop (thumbnail_gen.py lines 132-147) and the batched flush
(lines 156-158). -/
inductive MetaLog where
  | invalidEntry : MetaEntry → MetaLog
  | addedToBatch : String → Rat → MetaLog
  | conflictKept : String → Rat → Rat → MetaLog
  | duplicateSkipped : String → MetaLog
  | flushBatch : List MetaEntry → MetaLog
deriving DecidableEq

/-- Mutable state of `batch_save_metadata`: the `video_lengths` dict, the
unflushed batch, the changes flag, and the instant of the most recent
accepted entry. -/
structure MetaState where
  video_lengths : List (String × Rat)
  new_metadata : List MetaEntry
  changes_made : Bool
  last_modification : Rat
deriving DecidableEq

/-- One iteration of the drain loop of `batch_save_metadata`
(thumbnail_gen.py lines 127-147) on one queue entry at time `now`: falsy id
or length is invalid; an unknown id is recorded and batched and stamps
`last_modification`; a known id with a different length is a logged conflict
that changes nothing; a known id with the same length is a logged
duplicate. -/
def metaStep (st : MetaState) (now : Rat) (entry : MetaEntry) : MetaState × MetaLog :=
  match entry.Id, entry.Length with
  | some vid, some len =>
    if vid = "" ∨ len = 0 then (st, .invalidEntry entry)
    else
      match List.lookup vid st.video_lengths with
      | Option.none =>
        ({ st with video_lengths := (vid, len) :: st.video_lengths,
                   last_modification := now,
                   changes_made := true,
                   new_metadata := st.new_metadata ++ [entry] }, .addedToBatch vid len)
      | some existing =>
        if existing ≠ len then (st, .conflictKept vid existing len)
        else (st, .duplicateSkipped vid)
  | _, _ => (st, .invalidEntry entry)

/-- Drain a list of timed queue entries through `metaStep`, collecting the
log. -/
def metaDrain (st : MetaState) (entries : List (Rat × MetaEntry)) : MetaState × List MetaLog :=
  entries.foldl (fun acc te =>
    let r := metaStep acc.1 te.1 te.2
    (r.1, acc.2 ++ [r.2])) (st, [])

/-- The flush decision of `batch_save_metadata` (thumbnail_gen.py lines
150-160) at time `checkTime`: flush when changes were made and the batch has
at least 50 entries or at least 60 seconds passed since the last accepted
entry; flushing clears the batch and the changes flag. -/
def metaFlushCheck (st : MetaState) (checkTime : Rat) : MetaState × Bool :=
  if st.changes_made = true ∧ (st.new_metadata.length ≥ 50 ∨ checkTime - st.last_modification ≥ 60) then
    ({ st with new_metadata := [], changes_made := false }, true)
  else (st, false)

/-- One full cycle of `batch_save_metadata`: drain the queue entries, then
apply the flush decision at `checkTime`; returns the new state, the log (with
the flushed batch recorded), and whether a flush happened. -/
def metaCycle (st : MetaState) (entries : List (Rat × MetaEntry)) (checkTime : Rat) :
    MetaState × List MetaLog × Bool :=
  let d := metaDrain st entries
  let f := metaFlushCheck d.1 checkTime
  (f.1, d.2 ++ (if f.2 then [.flushBatch d.1.new_metadata] else []), f.2)

/- ---------------------------------------------------------------
   thumbnail_gen.py : process_video (Media Processor task)
   --------------------------------------------------------------- -/

/-- Task status values returned by `process_video`. -/
inductive TaskStatus where
  | generated
  | skipped
  | error
deriving DecidableEq

/-- Outcome of `download_video` (thumbnail_gen.py lines 60-70): an HTTP 200
that writes the file, a non-200 response that silently writes nothing, or a
raised network exception. -/
inductive DownloadResult where
  | ok
  | non200
  | exn
deriving DecidableEq

/-- The queue item consumed by `process_video`. -/
structure Video where
  Id : String
  Attachment_URL : String
deriving DecidableEq

/-- Per-task environment of `process_video`: the startup snapshots
`video_lengths` and `uploaded_uuids`, whether the temp file already exists,
and oracles for the download outcome, the ffprobe duration (`none` on any
probe failure), ffmpeg thumbnail success, and upload success. -/
structure ProcEnv where
  video_lengths : List (String × Rat)
  uploaded_uuids : List String
  tempExists : Bool
  download : DownloadResult
  probe : Option Rat
  thumbOk : Bool
  uploadOk : Bool
deriving DecidableEq

/-- Observable outcome of one `process_video` task: the returned status and
which effects were performed (download attempted, ffprobe run, metadata entry
enqueued, thumbnail file produced, upload invoked). -/
structure ProcResult where
  status : TaskStatus
  downloaded : Bool
  probed : Bool
  metadataEnqueued : Option (String × Rat)
  thumbGenerated : Bool
  uploadCalled : Bool
deriving DecidableEq

/-- `ThumbnailGenerator.process_video` (thumbnail_gen.py lines 186-235).
When duration and thumbnail are both already known the task returns
`skipped` before any effect. Otherwise it downloads when no temp file
exists (a raised download exception is the only uncaught error and yields
`error`); it probes when the duration is unknown, enqueueing metadata only
when ffprobe yields a value (a missing file always fails the probe); it runs
ffmpeg when the thumbnail is unknown (producing a file only when the input
file exists and ffmpeg succeeds); it always calls `upload_thumbnail` (which
catches its own errors) and returns `generated`. -/
def process_video (video : Video) (env : ProcEnv) : ProcResult :=
  let metadata_exists := (List.lookup video.Id env.video_lengths).isSome
  let thumbnail_exists := env.uploaded_uuids.contains video.Id
  if metadata_exists && thumbnail_exists then
    { status := .skipped, downloaded := false, probed := false,
      metadataEnqueued := Option.none, thumbGenerated := false, uploadCalled := false }
  else
    let attemptDownload := !env.tempExists
    if attemptDownload && (env.download == .exn) then
      { status := .error, downloaded := true, probed := false,
        metadataEnqueued := Option.none, thumbGenerated := false, uploadCalled := false }
    else
      let fileExists := env.tempExists || (env.download == .ok)
      let metadataEnqueued :=
        if !metadata_exists && fileExists then env.probe.map (fun l => (video.Id, l))
        else Option.none
      let thumbGenerated := !thumbnail_exists && fileExists && env.thumbOk
      { status := .generated, downloaded := attemptDownload, probed := !metadata_exists,
        metadataEnqueued := metadataEnqueued, thumbGenerated := thumbGenerated,
        uploadCalled := true }

/- ===============================================================
   Theorems
   =============================================================== -/

/-- Claim C1: for every attachment descriptor whose resource id is present in
both the duration-known set (`video_lengths`) and the thumbnail-known set
(`uploaded_uuids`) at task start, the Media Processor task returns status
`skipped` and performs no download, no duration probe, and no upload for that
descriptor. -/
theorem C1_idempotent_skip (v : Video) (env : ProcEnv)
    (h1 : (List.lookup v.Id env.video_lengths).isSome = true)
    (h2 : env.uploaded_uuids.contains v.Id = true) :
    process_video v env =
      { status := .skipped, downloaded := false, probed := false,
        metadataEnqueued := Option.none, thumbGenerated := false, uploadCalled := false } := by
  simp at h2
  simp [process_video, h1, h2]

/-- Witness for C1 at a concrete descriptor whose id is in both sets. -/
theorem C1_idempotent_skip_witness :
    process_video ⟨"a1b2c3d4", "https://cdn.x/v.mp4"⟩
        ⟨[("a1b2c3d4", 10)], ["a1b2c3d4"], false, .ok, Option.none, true, true⟩ =
      { status := .skipped, downloaded := false, probed := false,
        metadataEnqueued := Option.none, thumbGenerated := false, uploadCalled := false } :=
  C1_idempotent_skip ⟨"a1b2c3d4", "https://cdn.x/v.mp4"⟩
    ⟨[("a1b2c3d4", 10)], ["a1b2c3d4"], false, .ok, Option.none, true, true⟩
    (by decide) (by decide)

/-- Claim C6 counterexample: a task for an unknown resource whose download
gets an HTTP non-200 response produces no artifact at all (nothing enqueued,
no thumbnail file), yet `process_video` returns `generated`, refuting
"`generated` only if at least one new artifact was produced". -/
theorem C6_generated_without_artifact :
    (process_video ⟨"deadbeef", "https://cdn.x/v.mp4"⟩
        ⟨[], [], false, .non200, Option.none, true, true⟩).status = .generated ∧
    (process_video ⟨"deadbeef", "https://cdn.x/v.mp4"⟩
        ⟨[], [], false, .non200, Option.none, true, true⟩).metadataEnqueued = Option.none ∧
    (process_video ⟨"deadbeef", "https://cdn.x/v.mp4"⟩
        ⟨[], [], false, .non200, Option.none, true, true⟩).thumbGenerated = false := by
  decide

/-- Claim C6 (amended): `process_video` returns `skipped` iff duration and
thumbnail are both already known at task start; `error` iff a download is
attempted (no temp file) and raises; and `generated` in every other case —
i.e. whenever the task runs to completion, regardless of whether any new
artifact was actually produced. -/
theorem C6_status_amended (v : Video) (env : ProcEnv) :
    ((process_video v env).status = .skipped ↔
      ((List.lookup v.Id env.video_lengths).isSome && env.uploaded_uuids.contains v.Id) = true) ∧
    ((process_video v env).status = .error ↔
      ((List.lookup v.Id env.video_lengths).isSome && env.uploaded_uuids.contains v.Id) = false ∧
      env.tempExists = false ∧ env.download = .exn) ∧
    ((process_video v env).status = .generated ↔
      ((List.lookup v.Id env.video_lengths).isSome && env.uploaded_uuids.contains v.Id) = false ∧
      (env.tempExists = true ∨ env.download ≠ .exn)) := by
  cases hm : (List.lookup v.Id env.video_lengths).isSome <;>
    by_cases hu : v.Id ∈ env.uploaded_uuids <;>
    cases hte : env.tempExists <;>
    cases hd : env.download <;>
    simp [process_video, hm, hu, hte, hd]

/-- Witness for C6 (amended) at a concrete environment. -/
theorem C6_status_amended_witness :
    (process_video ⟨"deadbeef", "https://cdn.x/v.mp4"⟩
        ⟨[], [], true, .ok, Option.none, true, true⟩).status = .generated :=
  (C6_status_amended ⟨"deadbeef", "https://cdn.x/v.mp4"⟩
      ⟨[], [], true, .ok, Option.none, true, true⟩).2.2.mpr (by decide)

/-- Claim C7 counterexample: a download failure that raises no exception (an
HTTP non-200 response) obtains no local copy, yet the task returns
`generated`, not `error`, refuting "every failed download surfaces as
`error`". -/
theorem C7_non200_not_error :
    (process_video ⟨"cafebabe", "https://cdn.x/v.mp4"⟩
        ⟨[], [], false, .non200, Option.none, false, false⟩).status = .generated ∧
    (process_video ⟨"cafebabe", "https://cdn.x/v.mp4"⟩
        ⟨[], [], false, .non200, Option.none, false, false⟩).status ≠ .error := by
  decide

/-- Claim C7 (amended): for a descriptor not already fully processed and with
no pre-existing temp file, a download that raises an exception makes the task
return `error` with no probe, no metadata, no thumbnail, and no upload; a
download that fails with a non-200 response leaves no local copy but the task
still returns `generated` (with no artifact). Each task's outcome is a
function of its own descriptor and environment only. -/
theorem C7_download_failure_amended (v : Video) (env : ProcEnv)
    (hknown : ((List.lookup v.Id env.video_lengths).isSome && env.uploaded_uuids.contains v.Id) = false)
    (htemp : env.tempExists = false) :
    (env.download = .exn → process_video v env =
      { status := .error, downloaded := true, probed := false,
        metadataEnqueued := Option.none, thumbGenerated := false, uploadCalled := false }) ∧
    (env.download = .non200 →
      (process_video v env).status = .generated ∧
      (process_video v env).metadataEnqueued = Option.none ∧
      (process_video v env).thumbGenerated = false) := by
  rw [Bool.and_eq_false_iff] at hknown
  constructor <;> intro hd
  all_goals
    rcases hknown with hk | hk
  · rcases hl : List.lookup v.Id env.video_lengths with _ | q
    · simp [process_video, hl, htemp, hd]
    · rw [hl] at hk; simp at hk
  · simp at hk
    simp [process_video, hk, htemp, hd]
  · rcases hl : List.lookup v.Id env.video_lengths with _ | q
    · simp [process_video, hl, htemp, hd]
    · rw [hl] at hk; simp at hk
  · simp at hk
    simp [process_video, hk, htemp, hd]

/-- Witness for C7 (amended) at a concrete raising download. -/
theorem C7_download_failure_amended_witness :
    process_video ⟨"cafebabe", "https://cdn.x/v.mp4"⟩
        ⟨[], [], false, .exn, Option.none, true, true⟩ =
      { status := .error, downloaded := true, probed := false,
        metadataEnqueued := Option.none, thumbGenerated := false, uploadCalled := false } :=
  (C7_download_failure_amended ⟨"cafebabe", "https://cdn.x/v.mp4"⟩
      ⟨[], [], false, .exn, Option.none, true, true⟩ (by decide) (by decide)).1 rfl

/-- Claim C3: once a duration value has been recorded in the Metadata
Batcher's state, submitting an entry with the same id and a different length
leaves the `video_lengths` dict entirely unchanged (first recorded value
wins), adds nothing to the flush batch, and is logged (as a kept conflict,
or as an invalid entry when the new length is falsy). -/
theorem C3_first_write_wins (st : MetaState) (now : Rat) (vid : String) (v0 len : Rat)
    (h0 : List.lookup vid st.video_lengths = some v0) (h1 : len ≠ v0) :
    (metaStep st now ⟨some vid, some len⟩).1.video_lengths = st.video_lengths ∧
    List.lookup vid (metaStep st now ⟨some vid, some len⟩).1.video_lengths = some v0 ∧
    (metaStep st now ⟨some vid, some len⟩).1.new_metadata = st.new_metadata ∧
    ((metaStep st now ⟨some vid, some len⟩).2 = .conflictKept vid v0 len ∨
     (metaStep st now ⟨some vid, some len⟩).2 = .invalidEntry ⟨some vid, some len⟩) := by
  by_cases hv : vid = "" ∨ len = 0
  · simp [metaStep, hv, h0]
  · simp [metaStep, hv, h0, Ne.symm h1]

/-- Witness for C3: after recording length 10 for id `"a"`, submitting
length 12 for `"a"` leaves the stored value 10. -/
theorem C3_first_write_wins_witness :
    List.lookup "a" (metaStep ⟨[("a", 10)], [], false, 0⟩ 5 ⟨some "a", some 12⟩).1.video_lengths = some 10 :=
  (C3_first_write_wins ⟨[("a", 10)], [], false, 0⟩ 5 "a" 10 12 (by decide) (by decide)).2.1

/-- Claim C8 counterexample: entries accepted at times 0 and 50 with a flush
check at time 65. More than 60 seconds have elapsed since the batch's first
unflushed entry was accepted (at time 0), yet no flush happens, because the
code measures elapsed time from `last_modification`, which was restamped by
the second accepted entry at time 50. -/
theorem C8_no_flush_after_first_entry_timeout :
    ((65 : Rat) - 0 ≥ 60) ∧
    (metaCycle ⟨[], [], false, 0⟩ [(0, ⟨some "a", some 10⟩), (50, ⟨some "b", some 12⟩)] 65).2.2 = false ∧
    (metaCycle ⟨[], [], false, 0⟩ [(0, ⟨some "a", some 10⟩), (50, ⟨some "b", some 12⟩)] 65).2.1 =
      [.addedToBatch "a" 10, .addedToBatch "b" 12] ∧
    (metaCycle ⟨[], [], false, 0⟩ [(0, ⟨some "a", some 10⟩), (50, ⟨some "b", some 12⟩)] 65).1.new_metadata =
      [⟨some "a", some 10⟩, ⟨some "b", some 12⟩] := by
  refine ⟨by norm_num, ?_⟩
  simp [metaCycle, metaDrain, metaStep, metaFlushCheck, List.lookup]
  norm_num

/-- Claim C8 (amended): a metadata-batching cycle flushes exactly when
changes were made and the batch length is at least 50 or at least 60 seconds
have elapsed since the most recently accepted entry (`last_modification` is
restamped with `now` by every accepted entry and untouched by every
non-accepted one); after a flush, the batch buffer is empty. -/
theorem C8_flush_condition_amended (st : MetaState) (entries : List (Rat × MetaEntry)) (checkTime : Rat) :
    ((metaCycle st entries checkTime).2.2 = true ↔
      ((metaDrain st entries).1.changes_made = true ∧
       ((metaDrain st entries).1.new_metadata.length ≥ 50 ∨
        checkTime - (metaDrain st entries).1.last_modification ≥ 60))) ∧
    ((metaCycle st entries checkTime).2.2 = true → (metaCycle st entries checkTime).1.new_metadata = []) ∧
    (∀ (s : MetaState) (now : Rat) (e : MetaEntry) (v : String) (l : Rat),
      (metaStep s now e).2 = .addedToBatch v l → (metaStep s now e).1.last_modification = now) ∧
    (∀ (s : MetaState) (now : Rat) (e : MetaEntry),
      (∀ (v : String) (l : Rat), (metaStep s now e).2 ≠ .addedToBatch v l) →
      (metaStep s now e).1.last_modification = s.last_modification) := by
  refine ⟨?_, ?_, ?_, ?_⟩
  · by_cases hc : ((metaDrain st entries).1.changes_made = true ∧
       ((metaDrain st entries).1.new_metadata.length ≥ 50 ∨
        checkTime - (metaDrain st entries).1.last_modification ≥ 60))
    · simp [metaCycle, metaFlushCheck, hc]
    · simp [metaCycle, metaFlushCheck, hc]
  · intro hf
    by_cases hc : ((metaDrain st entries).1.changes_made = true ∧
       ((metaDrain st entries).1.new_metadata.length ≥ 50 ∨
        checkTime - (metaDrain st entries).1.last_modification ≥ 60))
    · simp [metaCycle, metaFlushCheck, hc]
    · simp [metaCycle, metaFlushCheck, hc] at hf
  · intro s now e v l h
    rcases e with ⟨eid, elen⟩
    cases eid with
    | none => simp [metaStep] at h
    | some vid =>
      cases elen with
      | none => simp [metaStep] at h
      | some len =>
        by_cases hv : vid = "" ∨ len = 0
        · simp [metaStep, hv] at h
        · cases hl : List.lookup vid s.video_lengths with
          | none => simp [metaStep, hv, hl]
          | some ex =>
            by_cases hx : ex ≠ len
            · simp [metaStep, hv, hl, hx] at h
            · simp [metaStep, hv, hl, hx] at h
  · intro s now e hne
    rcases e with ⟨eid, elen⟩
    cases eid with
    | none => simp [metaStep]
    | some vid =>
      cases elen with
      | none => simp [metaStep]
      | some len =>
        by_cases hv : vid = "" ∨ len = 0
        · simp [metaStep, hv]
        · cases hl : List.lookup vid s.video_lengths with
          | none =>
            exfalso
            exact hne vid len (by simp [metaStep, hv, hl])
          | some ex =>
            by_cases hx : ex ≠ len
            · simp [metaStep, hv, hl, hx]
            · simp [metaStep, hv, hl, hx]

/-- Witness for C8 (amended): one entry accepted at time 0 and a check at
time 61 does flush. -/
theorem C8_flush_condition_amended_witness :
    (metaCycle ⟨[], [], false, 0⟩ [(0, ⟨some "a", some 10⟩)] 61).2.2 = true :=
  (C8_flush_condition_amended ⟨[], [], false, 0⟩ [(0, ⟨some "a", some 10⟩)] 61).1.mpr
    (by simp [metaDrain, metaStep, List.lookup]; norm_num)

/-- Membership in a heap after `heappush`: the pushed element plus the old contents. -/
theorem mem_heappush (heap : List HeapEntry) (x e : HeapEntry) :
    e ∈ heappush heap x ↔ e ∈ heap ∨ e = x := by
  induction heap with
  | nil => simp [heappush]
  | cons y rest ih =>
    by_cases h : x.expire < y.expire
    · simp [heappush, h]
      tauto
    · simp [heappush, h, ih]
      tauto

/-- `heappush` preserves the heap invariant (sortedness by `expire`), so the
hypothesis of the scheduler theorem holds for every reachable heap. -/
theorem heappush_sorted (heap : List HeapEntry) (x : HeapEntry)
    (hs : List.Pairwise (fun a b => a.expire ≤ b.expire) heap) :
    List.Pairwise (fun a b => a.expire ≤ b.expire) (heappush heap x) := by
  induction heap with
  | nil => simp [heappush]
  | cons y rest ih =>
    rcases List.pairwise_cons.mp hs with ⟨hy, hrest⟩
    by_cases h : x.expire < y.expire
    · simp only [heappush, if_pos h]
      refine List.pairwise_cons.mpr ⟨?_, hs⟩
      intro b hb
      rcases List.mem_cons.mp hb with rfl | hb2
      · exact le_of_lt h
      · exact le_trans (le_of_lt h) (hy b hb2)
    · simp only [heappush, if_neg h]
      refine List.pairwise_cons.mpr ⟨?_, ih hrest⟩
      intro b hb
      rcases (mem_heappush rest x b).mp hb with hb2 | rfl
      · exact hy b hb2
      · exact not_lt.mp h

/-- Membership after pushing a whole list of entries. -/
theorem mem_foldl_heappush (l : List HeapEntry) (heap : List HeapEntry) (e : HeapEntry) :
    e ∈ l.foldl heappush heap ↔ e ∈ heap ∨ e ∈ l := by
  induction l generalizing heap with
  | nil => simp
  | cons x rest ih =>
    rw [List.foldl_cons, ih, mem_heappush]
    simp only [List.mem_cons]
    tauto

/-- The queue drain pushes exactly the validated entries and logs exactly the
invalid ones, in order. -/
theorem drainRefetchQueue_spec (heap : List HeapEntry) (log : List RefetchLog)
    (items : List QueueItem) :
    (drainRefetchQueue heap log items).1 = (items.filterMap toHeapEntry).foldl heappush heap ∧
    (drainRefetchQueue heap log items).2 =
      log ++ (items.filter (fun it => it.expire.toNum.isNone)).map
        (fun it => .invalidTimestamp it.message_id it.expire) := by
  induction items generalizing heap log with
  | nil => simp [drainRefetchQueue]
  | cons it rest ih =>
    have hstep : drainRefetchQueue heap log (it :: rest) =
        drainRefetchQueue (drainStep (heap, log) it).1 (drainStep (heap, log) it).2 rest := rfl
    cases hn : PyVal.toNum it.expire with
    | none =>
      have hd : drainStep (heap, log) it =
          (heap, log ++ [.invalidTimestamp it.message_id it.expire]) := by
        simp [drainStep, hn]
      rcases ih heap (log ++ [RefetchLog.invalidTimestamp it.message_id it.expire]) with ⟨ih1, ih2⟩
      constructor
      · rw [hstep, hd]
        simpa [toHeapEntry, hn] using ih1
      · rw [hstep, hd, ih2]
        simp [hn]
    | some q =>
      have hd : drainStep (heap, log) it =
          (heappush heap ⟨q, it.message_id, it.discord_id, it.channel_id⟩, log) := by
        simp [drainStep, hn]
      rcases ih (heappush heap ⟨q, it.message_id, it.discord_id, it.channel_id⟩) log with ⟨ih1, ih2⟩
      constructor
      · rw [hstep, hd]
        simpa [toHeapEntry, hn] using ih1
      · rw [hstep, hd, ih2]
        simp [hn]

/-- Claim C9: every drained entry whose `expire_at` is not numeric is dropped
with a logged error and never inserted into the priority queue, while
draining continues with the remaining entries: the final heap is exactly the
initial heap plus the numeric entries, and the log gains exactly one invalid
record per non-numeric entry. -/
theorem C9_invalid_entries_dropped (heap : List HeapEntry) (log : List RefetchLog)
    (items : List QueueItem) :
    (drainRefetchQueue heap log items).1 = (items.filterMap toHeapEntry).foldl heappush heap ∧
    (drainRefetchQueue heap log items).2 =
      log ++ (items.filter (fun it => it.expire.toNum.isNone)).map
        (fun it => .invalidTimestamp it.message_id it.expire) ∧
    (∀ e : HeapEntry, e ∈ (drainRefetchQueue heap log items).1 ↔
      e ∈ heap ∨ ∃ it ∈ items, toHeapEntry it = some e) := by
  rcases drainRefetchQueue_spec heap log items with ⟨h1, h2⟩
  refine ⟨h1, h2, ?_⟩
  intro e
  rw [h1, mem_foldl_heappush, List.mem_filterMap]

/-- Claim C5: for every heap (sorted by expiry, the invariant `heappush`
maintains) and fixed `now`, one invocation of `process_expired_messages`
pops and dispatches exactly the entries with `expire_at ≤ now`, in ascending
`expire_at` order, and leaves exactly the entries with `expire_at > now` in
the queue. -/
theorem C5_expired_processing (heap : List HeapEntry) (now : Int)
    (hs : List.Pairwise (fun a b => a.expire ≤ b.expire) heap) :
    (process_expired_messages heap now).2 = heap.filter (fun e => decide (e.expire ≤ (now : Rat))) ∧
    (process_expired_messages heap now).1 = heap.filter (fun e => !decide (e.expire ≤ (now : Rat))) ∧
    List.Pairwise (fun a b => a.expire ≤ b.expire) (process_expired_messages heap now).2 := by
  induction heap with
  | nil => simp [process_expired_messages]
  | cons e rest ih =>
    rcases List.pairwise_cons.mp hs with ⟨he, hrest⟩
    rcases ih hrest with ⟨ih1, ih2, ih3⟩
    by_cases h : e.expire ≤ (now : Rat)
    · refine ⟨?_, ?_, ?_⟩
      · simp [process_expired_messages, h, ih1]
      · simp [process_expired_messages, h, ih2]
      · simp only [process_expired_messages, if_pos h]
        refine List.pairwise_cons.mpr ⟨?_, ih3⟩
        intro b hb
        rw [ih1] at hb
        exact he b (List.mem_of_mem_filter hb)
    · have hall : ∀ b ∈ rest, ¬ b.expire ≤ (now : Rat) := by
        intro b hb hc
        exact h (le_trans (he b hb) hc)
      refine ⟨?_, ?_, ?_⟩
      · simp only [process_expired_messages, if_neg h]
        rw [List.filter_cons_of_neg (by simp [h]), List.filter_eq_nil_iff.mpr
          (fun b hb => by simp [hall b hb])]
      · simp only [process_expired_messages, if_neg h]
        rw [List.filter_cons_of_pos (by simp [h]), List.filter_eq_self.mpr
          (fun b hb => by simp [hall b hb])]
      · simp only [process_expired_messages, if_neg h]
        exact List.Pairwise.nil

/-- Witness for C5, the spec's own example: expiries 100, 200, 300 with
`now = 250` dispatch 100 and 200 and leave 300 pending. -/
theorem C5_expired_processing_witness :
    (process_expired_messages
        [⟨100, "m1", "d1", "c1"⟩, ⟨200, "m2", "d2", "c2"⟩, ⟨300, "m3", "d3", "c3"⟩] 250).2 =
      [⟨100, "m1", "d1", "c1"⟩, ⟨200, "m2", "d2", "c2"⟩] ∧
    (process_expired_messages
        [⟨100, "m1", "d1", "c1"⟩, ⟨200, "m2", "d2", "c2"⟩, ⟨300, "m3", "d3", "c3"⟩] 250).1 =
      [⟨300, "m3", "d3", "c3"⟩] := by
  have h := C5_expired_processing
    [⟨100, "m1", "d1", "c1"⟩, ⟨200, "m2", "d2", "c2"⟩, ⟨300, "m3", "d3", "c3"⟩] 250
    (by norm_num)
  refine ⟨h.1.trans ?_, h.2.1.trans ?_⟩ <;> norm_num

/-- Claim C4 counterexample: a live-loop iteration at time 60 (interval 60,
batch size 30) with one buffered message and one buffered poster flushes (an
upload event is emitted) and empties the message buffer, but the poster
buffer is NOT empty afterwards — `start_live_message_handling` never clears
`pending_users`. -/
theorem C4_poster_buffer_not_cleared :
    ((mhIterate ⟨[⟨"id1", "d1", "alice", 0, "l", "", "u", "f", Option.none, "c"⟩],
        [("alice", ⟨some "alice", Option.none⟩)], 0⟩ Option.none 60 30 60 true).2 ≠ []) ∧
    ((mhIterate ⟨[⟨"id1", "d1", "alice", 0, "l", "", "u", "f", Option.none, "c"⟩],
        [("alice", ⟨some "alice", Option.none⟩)], 0⟩ Option.none 60 30 60 true).1.pending_messages = []) ∧
    ((mhIterate ⟨[⟨"id1", "d1", "alice", 0, "l", "", "u", "f", Option.none, "c"⟩],
        [("alice", ⟨some "alice", Option.none⟩)], 0⟩ Option.none 60 30 60 true).1.pending_users ≠ []) := by
  refine ⟨?_, ?_, ?_⟩ <;>
    simp [mhIterate, mhReceive, mhFlushCheck]

/-- Claim C4 (amended): when a flush triggers in the live loop (size or time
threshold reached and the message buffer non-empty), one upload event with
both buffers is emitted, the message buffer is cleared and the flush timer
reset, but the poster buffer is left unchanged; the resulting state does not
depend on the upsert outcome (the datastore catches its own errors); the
poster buffer is cleared only by `shutdown`. -/
theorem C4_flush_amended (st : MHState) (item : Option (MessageData × UserData)) (now : Rat)
    (batch_size : Nat) (flush_interval : Rat) (ok : Bool)
    (hcond : (mhReceive st item).pending_messages.length ≥ batch_size ∨
             now - (mhReceive st item).last_flush_time ≥ flush_interval)
    (hne : (mhReceive st item).pending_messages ≠ []) :
    (mhIterate st item now batch_size flush_interval ok).1.pending_messages = [] ∧
    (mhIterate st item now batch_size flush_interval ok).1.last_flush_time = now ∧
    (mhIterate st item now batch_size flush_interval ok).1.pending_users =
      (mhReceive st item).pending_users ∧
    (mhIterate st item now batch_size flush_interval ok).2 =
      [.uploadEvent (mhReceive st item).pending_messages (mhReceive st item).pending_users ok] ∧
    (mhIterate st item now batch_size flush_interval ok).1 =
      (mhIterate st item now batch_size flush_interval (!ok)).1 ∧
    (mhShutdown st ok).1.pending_users = [] ∧
    (mhShutdown st ok).1.pending_messages = [] := by
  refine ⟨?_, ?_, ?_, ?_, ?_, ?_, ?_⟩
  all_goals
    first
    | (simp [mhIterate, mhFlushCheck, hcond, hne])
    | (by_cases hs : st.pending_messages ≠ [] ∨ st.pending_users ≠ []
       · simp [mhShutdown, hs]
       · push_neg at hs
         simp [mhShutdown, hs.1, hs.2])

/-- Witness for C4 (amended) at the concrete state of the counterexample. -/
theorem C4_flush_amended_witness :
    (mhIterate ⟨[⟨"id1", "d1", "alice", 0, "l", "", "u", "f", Option.none, "c"⟩],
        [("alice", ⟨some "alice", Option.none⟩)], 0⟩ Option.none 60 30 60 true).1.pending_messages = [] :=
  (C4_flush_amended ⟨[⟨"id1", "d1", "alice", 0, "l", "", "u", "f", Option.none, "c"⟩],
      [("alice", ⟨some "alice", Option.none⟩)], 0⟩ Option.none 60 30 60 true
      (Or.inr (by norm_num [mhReceive])) (by simp [mhReceive])).1

/-- A non-empty pattern is never a prefix of the empty character list. -/
theorem isPrefixOf_nil_false (pat : List Char) (h : pat ≠ []) :
    pat.isPrefixOf ([] : List Char) = false := by
  cases pat with
  | nil => exact absurd rfl h
  | cons a t => rfl

/-- Downward search for the last occurrence: when the pattern occurs at
`b.length` and nowhere later, the search from any `n ≥ b.length` lands on
`b.length`. -/
theorem lastOccFrom_eq_of_last (pat b s : List Char)
    (h1 : pat.isPrefixOf s = true)
    (hx : ∀ j, b.length < j → pat.isPrefixOf ((b ++ s).drop j) = false) :
    ∀ n, b.length ≤ n → lastOccFrom pat (b ++ s) n = some b.length := by
  intro n
  induction n with
  | zero =>
    intro hn
    have hb : b = [] := List.length_eq_zero.mp (Nat.le_zero.mp hn)
    subst hb
    simp [lastOccFrom, h1]
  | succ k ih =>
    intro hn
    by_cases he : b.length = k + 1
    · have hpre : pat.isPrefixOf ((b ++ s).drop (k + 1)) = true := by
        rw [← he, List.drop_left]
        exact h1
      simp only [lastOccFrom]
      rw [hpre]
      simp [he]
    · have hlt : b.length ≤ k := by omega
      have hfalse : pat.isPrefixOf ((b ++ s).drop (k + 1)) = false := hx (k + 1) (by omega)
      simp only [lastOccFrom, hfalse]
      simp only [Bool.false_eq_true, if_false]
      exact ih hlt

/-- `rfind` of `"?ex="` on `b ++ s` lands exactly at `b.length` when `s`
starts with the marker and contains no later occurrence of it. -/
theorem rfindLast_append (b s : List Char)
    (hpre : exMarker.isPrefixOf s = true)
    (hx : ∀ i < s.length, 0 < i → exMarker.isPrefixOf (s.drop i) = false) :
    rfindLast exMarker (b ++ s) = some b.length := by
  have hpat : exMarker ≠ [] := by decide
  have hx2 : ∀ j, b.length < j → exMarker.isPrefixOf ((b ++ s).drop j) = false := by
    intro j hj
    have hdrop : (b ++ s).drop j = s.drop (j - b.length) := by
      rw [List.drop_append_eq_append_drop, List.drop_eq_nil_of_le (by omega)]
      simp
    rw [hdrop]
    by_cases hjs : j - b.length < s.length
    · exact hx _ hjs (by omega)
    · rw [List.drop_eq_nil_of_le (by omega)]
      exact isPrefixOf_nil_false _ hpat
  unfold rfindLast
  exact lastOccFrom_eq_of_last exMarker b s hpre hx2 (b ++ s).length (by simp)

/-- Trimming a URL that is a base followed by its final expiry query returns
exactly the base. -/
theorem trim_append_eq (b s : List Char)
    (hpre : exMarker.isPrefixOf s = true)
    (hx : ∀ i < s.length, 0 < i → exMarker.isPrefixOf (s.drop i) = false) :
    trim_attachment_url (String.mk (b ++ s)) = String.mk b := by
  unfold trim_attachment_url
  have h : rfindLast exMarker (String.mk (b ++ s)).data = some b.length := rfindLast_append b s hpre hx
  rw [h]
  show String.mk ((b ++ s).take b.length) = String.mk b
  rw [List.take_left]

/-- Claim C2: the resource id computed by `process_message` is deterministic
(recomputing on identical inputs gives the identical value), and two
attachment URLs that share a base and differ only in the trailing expiry
query (the portion from the last `"?ex="` onward) yield the same resource id
for the same poster and timestamp. -/
theorem C2_id_stable_under_expiry (author created : String) (b s1 s2 : List Char)
    (h1 : exMarker.isPrefixOf s1 = true) (h2 : exMarker.isPrefixOf s2 = true)
    (hx1 : ∀ i < s1.length, 0 < i → exMarker.isPrefixOf (s1.drop i) = false)
    (hx2 : ∀ i < s2.length, 0 < i → exMarker.isPrefixOf (s2.drop i) = false) :
    (∀ url : String, attachment_uuid author created url = attachment_uuid author created url) ∧
    attachment_uuid author created (String.mk (b ++ s1)) =
      attachment_uuid author created (String.mk (b ++ s2)) := by
  refine ⟨fun _ => rfl, ?_⟩
  unfold attachment_uuid
  rw [trim_append_eq b s1 h1 hx1, trim_append_eq b s2 h2 hx2]

/-- Witness for C2 at a concrete Discord CDN URL with two different expiry
queries. -/
theorem C2_id_stable_under_expiry_witness :
    attachment_uuid "123456789" "2024-01-01 00:00:00+00:00"
        (String.mk ("https://cdn.discordapp.com/attachments/1/2/clip.mp4".data ++ "?ex=67ab12cd&is=1".data)) =
      attachment_uuid "123456789" "2024-01-01 00:00:00+00:00"
        (String.mk ("https://cdn.discordapp.com/attachments/1/2/clip.mp4".data ++ "?ex=99ff00aa".data)) :=
  (C2_id_stable_under_expiry "123456789" "2024-01-01 00:00:00+00:00"
      "https://cdn.discordapp.com/attachments/1/2/clip.mp4".data
      "?ex=67ab12cd&is=1".data "?ex=99ff00aa".data
      (by decide) (by decide) (by decide) (by decide)).2

/-- `toBytesLE` produces exactly `k` bytes. -/
theorem toBytesLE_length (k x : Nat) : (toBytesLE k x).length = k := by
  induction k generalizing x with
  | zero => rfl
  | succ n ih => simp [toBytesLE, ih]

/-- Every byte serialized by `toBytesLE` is below 256. -/
theorem toBytesLE_lt (k x : Nat) : ∀ b ∈ toBytesLE k x, b < 256 := by
  induction k generalizing x with
  | zero => simp [toBytesLE]
  | succ n ih =>
    intro b hb
    simp only [toBytesLE, List.mem_cons] at hb
    rcases hb with rfl | hb
    · exact Nat.mod_lt _ (by norm_num)
    · exact ih _ b hb

/-- The MD5 digest always has exactly 16 bytes. -/
theorem md5Bytes_length (msg : List Nat) : (md5Bytes msg).length = 16 := by
  simp [md5Bytes, toBytesLE_length]

/-- Every MD5 digest byte is below 256. -/
theorem md5Bytes_lt (msg : List Nat) : ∀ b ∈ md5Bytes msg, b < 256 := by
  intro b hb
  simp only [md5Bytes, List.append_assoc, List.mem_append] at hb
  rcases hb with hb | hb | hb | hb <;> exact toBytesLE_lt _ _ b hb

/-- The MD5 hex digest always has exactly 32 characters. -/
theorem length_md5Hexdigest (msg : List Nat) : (md5Hexdigest msg).length = 32 := by
  have h2 : ∀ l : List Nat, (l.flatMap byteToHex).length = 2 * l.length := by
    intro l
    induction l with
    | nil => simp
    | cons b t ih =>
      simp [byteToHex, ih]
      ring
  simp [md5Hexdigest, h2, md5Bytes_length]

/-- `hexChar` of a value below 16 is a lowercase hex digit. -/
theorem hexChar_lower (n : Nat) (h : n < 16) : isLowerHexDigit (hexChar n) = true := by
  have hall : ∀ m < 16, isLowerHexDigit (hexChar m) = true := by decide
  exact hall n h

/-- Every character of an MD5 hex digest is a lowercase hex digit. -/
theorem md5Hexdigest_chars (msg : List Nat) :
    ∀ c ∈ md5Hexdigest msg, isLowerHexDigit c = true := by
  intro c hc
  simp only [md5Hexdigest, List.mem_flatMap] at hc
  obtain ⟨b, hb, hcb⟩ := hc
  have hblt := md5Bytes_lt msg b hb
  simp only [byteToHex, List.mem_cons, List.not_mem_nil, or_false] at hcb
  rcases hcb with rfl | rfl
  · exact hexChar_lower _ (Nat.div_lt_of_lt_mul (by omega))
  · exact hexChar_lower _ (Nat.mod_lt _ (by norm_num))

/-- Claim C10: for every input triple, `generate_message_id` returns a string
of exactly 8 characters, each a lowercase hexadecimal digit, equal to the
first 8 hex digits of the MD5 of the concatenation of the three arguments;
being a total function of total operations, it cannot raise. -/
theorem C10_id_is_8_lower_hex (a c u : String) :
    (generate_message_id a c u).length = 8 ∧
    (∀ ch ∈ (generate_message_id a c u).data, isLowerHexDigit ch = true) ∧
    generate_message_id a c u = String.mk ((md5Hexdigest (strBytes (a ++ c ++ u))).take 8) := by
  refine ⟨?_, ?_, rfl⟩
  · show ((md5Hexdigest (strBytes (a ++ c ++ u))).take 8).length = 8
    rw [List.length_take, length_md5Hexdigest]
    decide
  · intro ch hch
    exact md5Hexdigest_chars _ ch (List.take_subset _ _ hch)
